import Mathlib

/-!
Verification development for the ccnet bill-validator driver
(`ccnet_prot.py`).  Byte strings are modelled as `List Nat`; a Python
exception is modelled as an `Option` result of `none` (for pure helpers)
or as an aborted step (`ok = false`) for the stateful tick machine, which
keeps the in-place mutations performed before the exception, exactly as a
Python object would.
-/

set_option maxRecDepth 8192

namespace CCNet

/-! ## CRC-16/KERMIT as computed by PyCRC's `CRC16Kermit().calculate` -/

/-- One bit-round of the reflected CRC-16 generator used to build PyCRC's
Kermit table: shift right once, folding in the polynomial 0x8408 when the
low bit is set. -/
def kermitRound (c : Nat) : Nat :=
  if c &&& 1 = 1 then (c >>> 1) ^^^ 0x8408 else c >>> 1

/-- Entry `i` of PyCRC's 256-entry Kermit table: eight rounds applied to
the index. -/
def kermitTab (i : Nat) : Nat :=
  kermitRound (kermitRound (kermitRound (kermitRound
    (kermitRound (kermitRound (kermitRound (kermitRound i)))))))

/-- The byte-wise table update loop of `CRC16Kermit.calculate`. -/
def crcLoop (xs : List Nat) : Nat :=
  xs.foldl (fun crc d => (crc >>> 8) ^^^ kermitTab ((crc ^^^ d) &&& 0xff)) 0

/-- `CRC16Kermit.calculate`: the table loop followed by the final byte swap
PyCRC performs before returning. -/
def calcCrc (xs : List Nat) : Nat :=
  ((crcLoop xs &&& 0xff00) >>> 8) ||| ((crcLoop xs &&& 0x00ff) <<< 8)

/-- `CashCodeNETCommand.get_crc`: `bytes(message_body)` raises `ValueError`
for a value outside 0..255 (modelled as `none`), and
`int.to_bytes(2, byteorder='big')` raises `OverflowError` at or above
2^16 (also `none`); otherwise the big-endian byte pair of the CRC. -/
def get_crc (xs : List Nat) : Option (Nat × Nat) :=
  if xs.all (fun b => b < 256) then
    let v := calcCrc xs
    if v < 65536 then some (v / 256, v % 256) else none
  else none

/-! ## Frame codec (`CashCodeNETCommand`) -/

/-- `CashCodeNETCommand.get_lng`: total frame length for a data payload
(1 SYNC + 1 ADR + 1 LNG + 1 CMD + data + 2 CRC). -/
def get_lng (data : List Nat) : Nat :=
  1 + 1 + 1 + 1 + data.length + 2

/-- `CashCodeNETCommand.build_message`: SYNC ADR LNG CMD DATA followed by
the CRC byte pair; `none` models the `ValueError` raised when a byte of the
body (including the computed LNG) does not fit in 0..255. -/
def build_message (cmd : Nat) (data : List Nat) : Option (List Nat) :=
  match get_crc (2 :: 3 :: get_lng data :: cmd :: data) with
  | none => none
  | some (c1, c2) => some (2 :: 3 :: get_lng data :: cmd :: data ++ [c1, c2])

/-- `CashCodeNETCommand.validate_message`, with Python's left-to-right
short-circuit evaluation made explicit: indexing an absent byte raises
`IndexError` (`none`); otherwise the boolean conjunction of the SYNC, ADR,
length and CRC checks is returned. -/
def validate_message (msg : List Nat) : Option Bool :=
  match msg[0]? with
  | none => none
  | some b0 =>
    if b0 = 2 then
      match msg[1]? with
      | none => none
      | some b1 =>
        if b1 = 3 then
          match msg[2]? with
          | none => none
          | some b2 =>
            if b2 = msg.length then
              match get_crc (msg.take (msg.length - 2)) with
              | none => none
              | some (c1, c2) => some (decide (msg.drop (msg.length - 2) = [c1, c2]))
            else some false
        else some false
    else some false

/-! ## Bounds on the CRC computation -/

lemma shiftRight_le (a k : Nat) : a >>> k ≤ a := by
  rw [Nat.shiftRight_eq_div_pow]; exact Nat.div_le_self _ _

lemma kermitRound_lt {c : Nat} (h : c < 2 ^ 16) : kermitRound c < 2 ^ 16 := by
  unfold kermitRound
  split
  · exact Nat.xor_lt_two_pow (lt_of_le_of_lt (shiftRight_le c 1) h) (by norm_num)
  · exact lt_of_le_of_lt (shiftRight_le c 1) h

lemma kermitTab_lt {i : Nat} (h : i < 2 ^ 16) : kermitTab i < 2 ^ 16 := by
  unfold kermitTab
  exact kermitRound_lt (kermitRound_lt (kermitRound_lt (kermitRound_lt
    (kermitRound_lt (kermitRound_lt (kermitRound_lt (kermitRound_lt h)))))))

lemma crcLoop_lt (xs : List Nat) : crcLoop xs < 2 ^ 16 := by
  unfold crcLoop
  have key : ∀ c, c < 2 ^ 16 →
      xs.foldl (fun crc d => (crc >>> 8) ^^^ kermitTab ((crc ^^^ d) &&& 0xff)) c < 2 ^ 16 := by
    induction xs with
    | nil => intro c hc; simpa using hc
    | cons d xs ih =>
        intro c hc
        simp only [List.foldl_cons]
        apply ih
        apply Nat.xor_lt_two_pow (lt_of_le_of_lt (shiftRight_le c 8) hc)
        exact kermitTab_lt (lt_of_le_of_lt Nat.and_le_right (by norm_num))
  exact key 0 (by norm_num)

lemma calcCrc_lt (xs : List Nat) : calcCrc xs < 65536 := by
  have h : (65536 : Nat) = 2 ^ 16 := by norm_num
  rw [h]
  unfold calcCrc
  apply Nat.or_lt_two_pow
  · exact lt_of_le_of_lt (le_trans (shiftRight_le _ 8) Nat.and_le_right) (by norm_num)
  · calc (crcLoop xs &&& 0x00ff) <<< 8 ≤ 0xff <<< 8 := by
          rw [Nat.shiftLeft_eq, Nat.shiftLeft_eq]
          exact Nat.mul_le_mul_right _ Nat.and_le_right
      _ < 2 ^ 16 := by decide

/-- A CCNET frame around a raw body, as the device would send it:
SYNC ADR LNG body CRC.  This is the framing `build_message` produces
(`mkFrame (cmd :: data)`) and the one `validate_message` checks. -/
def mkFrame (body : List Nat) : List Nat :=
  match get_crc (2 :: 3 :: (body.length + 5) :: body) with
  | some (c1, c2) => 2 :: 3 :: (body.length + 5) :: body ++ [c1, c2]
  | none => 2 :: 3 :: (body.length + 5) :: body

lemma get_crc_isSome {xs : List Nat} (h : ∀ b ∈ xs, b < 256) :
    get_crc xs = some (calcCrc xs / 256, calcCrc xs % 256) := by
  unfold get_crc
  have hall : xs.all (fun b => b < 256) = true := by
    simp only [List.all_eq_true, decide_eq_true_eq]; exact h
  rw [if_pos hall, if_pos (calcCrc_lt xs)]

lemma validate_mkFrame {body : List Nat} (hb : ∀ b ∈ body, b < 256)
    (hlen : body.length ≤ 250) : validate_message (mkFrame body) = some true := by
  have hbase_bytes : ∀ b ∈ 2 :: 3 :: (body.length + 5) :: body, b < 256 := by
    intro b hbmem
    simp only [List.mem_cons] at hbmem
    rcases hbmem with rfl | rfl | rfl | hbmem
    · norm_num
    · norm_num
    · omega
    · exact hb b hbmem
  have hcrc := get_crc_isSome hbase_bytes
  set c1v := calcCrc (2 :: 3 :: (body.length + 5) :: body) / 256 with hc1v
  set c2v := calcCrc (2 :: 3 :: (body.length + 5) :: body) % 256 with hc2v
  have hframe : mkFrame body = 2 :: 3 :: (body.length + 5) :: (body ++ [c1v, c2v]) := by
    unfold mkFrame
    rw [hcrc]
    rfl
  have hlen2 : (2 :: 3 :: (body.length + 5) :: (body ++ [c1v, c2v])).length = body.length + 5 := by
    simp only [List.length_cons, List.length_append, List.length_cons, List.length_nil]
  have htake : (2 :: 3 :: (body.length + 5) :: (body ++ [c1v, c2v])).take (body.length + 3)
      = 2 :: 3 :: (body.length + 5) :: body := by
    rw [show body.length + 3 = body.length + 2 + 1 from rfl, List.take_succ_cons,
        show body.length + 2 = body.length + 1 + 1 from rfl, List.take_succ_cons,
        show body.length + 1 = body.length + 0 + 1 from rfl, List.take_succ_cons]
    simp [List.take_left]
  have hdrop : (2 :: 3 :: (body.length + 5) :: (body ++ [c1v, c2v])).drop (body.length + 3)
      = [c1v, c2v] := by
    rw [show body.length + 3 = body.length + 2 + 1 from rfl, List.drop_succ_cons,
        show body.length + 2 = body.length + 1 + 1 from rfl, List.drop_succ_cons,
        show body.length + 1 = body.length + 0 + 1 from rfl, List.drop_succ_cons]
    simp [List.drop_left]
  rw [hframe]
  simp only [validate_message, List.getElem?_cons_zero, List.getElem?_cons_succ,
    List.length_cons, List.length_append, List.length_nil]
  norm_num
  rw [show body.length + 2 + 1 + 1 + 1 - 2 = body.length + 3 from by omega, htake, hcrc, hdrop]
  simp

/-! ## Response parser (`CashCodeNETResponse`) -/

/-- `CashCodeNETResponse.poll_states` (page 39 of the protocol): the fixed
status-code table; `none` models the `KeyError` raised for an unmapped
code. -/
def poll_states (code : Nat) : Option String :=
  match code with
  | 0x0 => some "response_error"
  | 0x10 => some "power_up"
  | 0x11 => some "power_up_with_bill_in_validator"
  | 0x12 => some "power_up_with_bill_in_stacker"
  | 0x13 => some "initialize"
  | 0x14 => some "idling"
  | 0x15 => some "accepting"
  | 0x17 => some "stacking"
  | 0x18 => some "returning"
  | 0x19 => some "disabled"
  | 0x1A => some "holding"
  | 0x1B => some "busy"
  | 0x1C => some "rejecting"
  | 0x21 => some "setting_type_cassette"
  | 0x25 => some "dispensed"
  | 0x26 => some "unloaded"
  | 0x28 => some "invalid_bill_number"
  | 0x29 => some "set_cassette_type"
  | 0x30 => some "invalid_command"
  | 0x41 => some "drop_cassette_full"
  | 0x42 => some "drop_cassette_removed"
  | 0x43 => some "jam_in_acceptor"
  | 0x44 => some "jam_in_stacker"
  | 0x45 => some "cheated"
  | 0x46 => some "pause"
  | 0x47 => some "error"
  | 0x80 => some "escrow"
  | 0x81 => some "stacked"
  | 0x82 => some "returned"
  | 0x84 => some "suspected_bill_detected"
  | 0x90 => some "counterfit_held_in_validator"
  | _ => none

/-- `CashCodeNETResponse.reject_reason` (page 39): `.get` lookup, `none`
for an absent key.  The descriptions are abbreviated to their leading
cause word; no claim inspects the text itself, only its presence. -/
def reject_reason (code : Nat) : Option String :=
  match code with
  | 0x60 => some "Rejecting due to Insertion"
  | 0x61 => some "Rejecting due to Magnetic"
  | 0x62 => some "Rejecting due to bill Remaining in the head"
  | 0x63 => some "Rejecting due to Multiplying"
  | 0x64 => some "Rejecting due to Conveying"
  | 0x65 => some "Rejecting due to Identification"
  | 0x66 => some "Rejecting due to Verification"
  | 0x67 => some "Rejecting due to Optic"
  | 0x68 => some "Rejecting due to Inhibit"
  | 0x69 => some "Rejecting due to Capacity"
  | 0x6A => some "Rejecting due to Operation"
  | 0x6C => some "Rejecting due to Length"
  | 0x6D => some "Rejecting due to UV"
  | 0x92 => some "Rejecting due to Unrecognized barcode"
  | 0x93 => some "Rejecting due to incorrect number of characters in barcode"
  | 0x94 => some "Rejecting due to unknown barcode start sequence"
  | 0x95 => some "Rejecting due to unknown barcode stop sequence"
  | _ => none

/-- The `Response` namedtuple returned by `get_poll`. -/
structure PollResult where
  state : String
  data : List Nat
  reason : Option String
  deriving DecidableEq, Repr

/-- `CashCodeNETResponse.validate_response`: an empty byte string is
rejected up front, everything else goes through `validate_message`. -/
def validate_response (resp : List Nat) : Option Bool :=
  if resp = [] then some false else validate_message resp

/-- The Python slice `response[3:-2]`: the frame body between the 3-byte
header and the 2-byte checksum. -/
def response_body (resp : List Nat) : List Nat :=
  (resp.drop 3).take (resp.length - 5)

/-- `CashCodeNETResponse.get_poll`: an invalid (or absent) response is
replaced by the single synthetic zero byte; the state byte is looked up in
`poll_states` (a `KeyError`, modelled `none`, for unknown codes), the body
is kept verbatim, and the last body byte indexes `reject_reason`.  `none`
also models the exceptions escaping from `validate_message` on short
inputs and the `IndexError` on an empty body of a valid frame. -/
def get_poll (resp : List Nat) : Option PollResult :=
  match validate_response resp with
  | none => none
  | some ok =>
    let body := if ok then response_body resp else [0]
    match body[0]? with
    | none => none
    | some b0 =>
      match poll_states b0 with
      | none => none
      | some st =>
        match body.getLast? with
        | none => none
        | some blast => some ⟨st, body, reject_reason blast⟩

/-! ## Bill table decoding (`grouper` + `get_bill_table`) -/

/-- One entry of the decoded bill table: the denomination and the
three-character country code. -/
structure BillEntry where
  amount : Nat
  code : String
  deriving DecidableEq, Repr, Inhabited

/-- `grouper(iterable, 5, fillvalue=None)` as used by `get_bill_table`:
consecutive 5-element chunks, the last one padded with `None`
(`zip_longest` semantics). -/
def grouper5 : List Nat → List (List (Option Nat))
  | [] => []
  | [a] => [[some a, none, none, none, none]]
  | [a, b] => [[some a, some b, none, none, none]]
  | [a, b, c] => [[some a, some b, some c, none, none]]
  | [a, b, c, d] => [[some a, some b, some c, some d, none]]
  | a :: b :: c :: d :: e :: rest =>
      [some a, some b, some c, some d, some e] :: grouper5 rest

/-- The loop body of `get_bill_table` for one 5-element word:
`word[0] * (10 ** word[4])` raises `TypeError` when the exponent slot is the
`None` fill value, and `chr` raises on a `None` country byte; both are
modelled as `none`. -/
def decode_word (w : List (Option Nat)) : Option BillEntry :=
  match w.getD 0 none, w.getD 1 none, w.getD 2 none, w.getD 3 none, w.getD 4 none with
  | some d, some c1, some c2, some c3, some e =>
      some ⟨d * 10 ^ e, String.mk [Char.ofNat c1, Char.ofNat c2, Char.ofNat c3]⟩
  | _, _, _, _, _ => none

/-- The accumulation loop of `get_bill_table`: one decoded entry appended
per 5-byte word, the whole call failing if any word raises. -/
def decode_table : List (List (Option Nat)) → Option (List BillEntry)
  | [] => some []
  | w :: ws =>
    match decode_word w with
    | none => none
    | some e =>
      match decode_table ws with
      | none => none
      | some l => some (e :: l)

/-- `CashCodeNETResponse.get_bill_table`: an invalid response yields the
empty table (Python returns the empty dict `{}`; it is modelled as the
empty list, and indexing into it fails either way), a valid one is decoded
in 5-byte groups. -/
def get_bill_table (resp : List Nat) : Option (List BillEntry) :=
  match validate_response resp with
  | none => none
  | some false => some []
  | some true => decode_table (grouper5 (response_body resp))

/-! ## Acceptance state machine (`MsmValidator` over `CashCodeMSM`)

The serial exchange is abstracted away: a `tick` takes the raw bytes the
device answered to the POLL, plus the raw bytes it would answer to the
GET_BILL_TABLE issued inside `enable_bill_types` (used only on the
`disabled`-while-active path).  Callbacks and device commands are recorded
as an event list; `ok = false` records a Python exception escaping `tick`,
with all mutations made before the raise kept, as on a live object. -/

/-- The mutable fields of `CashCodeMSM` (`enabled_bill`, `bill_table`) and
`MsmValidator` (`cassette_removed`, `active`, `on_time`, `timeout`,
`amount`, `current_amount`, `country_code`). -/
structure VState where
  enabled_bill : List Nat
  bill_table : List BillEntry
  cassette_removed : Bool
  active : Bool
  on_time : Nat
  timeout : Nat
  amount : Nat
  current_amount : Nat
  country_code : String
  deriving DecidableEq, Repr

/-- Externally observable effects of the state machine: the five callbacks
and the device commands it sends. -/
inductive Event where
  | cbGetBillsDone (total : Nat)
  | cbTimeout (total : Nat)
  | cbBillStacked (amount : Nat)
  | cbCassetteRemoved
  | cbDeviceRemoved
  | cmdReset
  | cmdDisable
  | cmdEnable (bytes : List Nat)
  | cmdStack
  deriving DecidableEq, Repr

/-- Result of one handler or one tick: the state after all mutations, the
events emitted, and whether control returned normally (`ok = true`) or an
exception escaped (`ok = false`). -/
structure Step where
  st : VState
  events : List Event
  ok : Bool
  deriving DecidableEq, Repr

/-- State after `MsmValidator.__init__` (given the constructor arguments
`enabled_bill` and `country_code`): everything zero / false / empty. -/
def initState (eb : List Nat) (cc : String) : VState :=
  ⟨eb, [], false, false, 0, 0, 0, 0, cc⟩

/-- `MsmValidator.turn_off`: capture the collected amount, reset the
session fields, then reset (forced) or disable (non-forced) the device;
returns the amount, the new state and the command sent. -/
def turn_off (force : Bool) (s : VState) : Nat × VState × Event :=
  (s.current_amount,
   { s with active := false, amount := 0, on_time := 0, timeout := 0, current_amount := 0 },
   if force then Event.cmdReset else Event.cmdDisable)

/-- `MsmValidator.get_bills`: refuse (returning `False`) while a session
is active; otherwise record target, start time and timeout and go active,
returning `True`. -/
def get_bills (now amt tout : Nat) (s : VState) : Bool × VState :=
  if s.active then (false, s)
  else (true, { s with amount := amt, on_time := now, timeout := tout, active := true })

/-- The 24-bit acceptance mask built by `CashCodeMSM.enable_bill_types`:
bit `i` is set iff table slot `i` matches the country code and its amount
is among the enabled denominations.  Callable only after the bounds of all
24 slots were checked. -/
def enable_mask (tbl : List BillEntry) (eb : List Nat) (cc : String) : Nat :=
  (List.range 24).foldl
    (fun acc bit =>
      if (tbl.getD bit default).code = cc ∧ (tbl.getD bit default).amount ∈ eb
      then acc + (1 <<< bit) else acc)
    0

/-- `int.to_bytes(3, byteorder='big')` for a mask below 2^24. -/
def mask_bytes (m : Nat) : List Nat :=
  [m / 65536 % 256, m / 256 % 256, m % 256]

/-- `CashCodeMSM.enable_bill_types`: refresh the bill table from the
device's GET_BILL_TABLE answer (the cache is replaced even when the table
is unusable), then build the acceptance mask over slots 0..23 — indexing
an absent slot raises (`ok = false`) — and send the six mask bytes
(the escrow half mirroring the accept half). -/
def enable_bill_types (tableResp : List Nat) (s : VState) : Step :=
  match get_bill_table tableResp with
  | none => ⟨s, [], false⟩
  | some tbl =>
    let s1 := { s with bill_table := tbl }
    if 24 ≤ tbl.length then
      let m := enable_mask tbl s1.enabled_bill s1.country_code
      ⟨s1, [Event.cmdEnable (mask_bytes m ++ mask_bytes m)], true⟩
    else ⟨s1, [], false⟩

/-- `MsmValidator.on_power_up`: issue a device reset. -/
def on_power_up (_r : PollResult) (s : VState) : Step := ⟨s, [Event.cmdReset], true⟩

/-- `MsmValidator.on_initialize` / `on_idling` / `on_accepting` /
`on_stacking`: waiting states, no action. -/
def on_noop (_r : PollResult) (s : VState) : Step := ⟨s, [], true⟩

/-- The first statement of `MsmValidator.on_disabled`: clear the latched
cassette-removed flag (a no-op when it was already clear). -/
def clear_latch (s : VState) : VState :=
  if s.cassette_removed then { s with cassette_removed := false } else s

/-- `MsmValidator.on_disabled`: clear the latched cassette-removed flag,
then — only while a session is active — re-enable the configured bill
types. -/
def on_disabled (tableResp : List Nat) (_r : PollResult) (s : VState) : Step :=
  if (clear_latch s).active then enable_bill_types tableResp (clear_latch s)
  else ⟨clear_latch s, [], true⟩

/-- `MsmValidator.on_escrow`: send STACK, then the log line indexes the
cached bill table with the last data byte — an out-of-range index raises
after the command was already sent. -/
def on_escrow (r : PollResult) (s : VState) : Step :=
  match r.data.getLast? with
  | none => ⟨s, [Event.cmdStack], false⟩
  | some idx =>
    if idx < s.bill_table.length then ⟨s, [Event.cmdStack], true⟩
    else ⟨s, [Event.cmdStack], false⟩

/-- `MsmValidator.on_stacked`: resolve the denomination via the last data
byte (raising on a bad index), fire the bill-stacked callback, accumulate,
and when the target is met end the session and fire the goal callback with
the total captured by `turn_off`. -/
def on_stacked (r : PollResult) (s : VState) : Step :=
  match r.data.getLast? with
  | none => ⟨s, [], false⟩
  | some idx =>
    match s.bill_table[idx]? with
    | none => ⟨s, [], false⟩
    | some entry =>
      if s.amount ≤ s.current_amount + entry.amount then
        ⟨(turn_off false { s with current_amount := s.current_amount + entry.amount }).2.1,
         [Event.cbBillStacked entry.amount,
          (turn_off false { s with current_amount := s.current_amount + entry.amount }).2.2,
          Event.cbGetBillsDone
            (turn_off false { s with current_amount := s.current_amount + entry.amount }).1],
         true⟩
      else ⟨{ s with current_amount := s.current_amount + entry.amount },
            [Event.cbBillStacked entry.amount], true⟩

/-- `MsmValidator.on_returned`: the log line indexes the cached bill table
with the last data byte; no other effect. -/
def on_returned (r : PollResult) (s : VState) : Step :=
  match r.data.getLast? with
  | none => ⟨s, [], false⟩
  | some idx => if idx < s.bill_table.length then ⟨s, [], true⟩ else ⟨s, [], false⟩

/-- `MsmValidator.on_rejecting`: log only. -/
def on_rejecting (_r : PollResult) (s : VState) : Step := ⟨s, [], true⟩

/-- `MsmValidator.on_drop_cassette_removed`: fire the cassette-removed
callback and set the latch on the first observation only. -/
def on_drop_cassette_removed (_r : PollResult) (s : VState) : Step :=
  if s.cassette_removed then ⟨s, [], true⟩
  else ⟨{ s with cassette_removed := true }, [Event.cbCassetteRemoved], true⟩

/-- `MsmValidator.on_response_error`: fire the device-removed callback
exactly when the body is the single synthetic zero byte. -/
def on_response_error (r : PollResult) (s : VState) : Step :=
  if r.data = [0] then ⟨s, [Event.cbDeviceRemoved], true⟩ else ⟨s, [], true⟩

/-- `getattr(self, 'on_' + state)` in `MsmValidator.tick`: the handlers
that exist on the class; any other decoded state raises `AttributeError`
(`none`). -/
def dispatch (tableResp : List Nat) (r : PollResult) (s : VState) : Option Step :=
  match r.state with
  | "power_up" => some (on_power_up r s)
  | "initialize" => some (on_noop r s)
  | "disabled" => some (on_disabled tableResp r s)
  | "idling" => some (on_noop r s)
  | "accepting" => some (on_noop r s)
  | "escrow" => some (on_escrow r s)
  | "stacking" => some (on_noop r s)
  | "stacked" => some (on_stacked r s)
  | "returned" => some (on_returned r s)
  | "rejecting" => some (on_rejecting r s)
  | "drop_cassette_removed" => some (on_drop_cassette_removed r s)
  | "response_error" => some (on_response_error r s)
  | _ => none

/-- `MsmValidator.tick` at wall-clock time `now`, with the device
answering `raw` to the POLL (and `tableResp` to a GET_BILL_TABLE, if one
is issued): first the timeout check ends an expired session and fires the
timeout callback, then the poll answer is parsed and dispatched. -/
def tick (now : Nat) (raw tableResp : List Nat) (s : VState) : Step :=
  let (evs1, s1) :=
    if s.active ∧ s.on_time + s.timeout < now then
      ([(turn_off false s).2.2, Event.cbTimeout (turn_off false s).1], (turn_off false s).2.1)
    else ([], s)
  match get_poll raw with
  | none => ⟨s1, evs1, false⟩
  | some r =>
    match dispatch tableResp r s1 with
    | none => ⟨s1, evs1, false⟩
    | some st => ⟨st.st, evs1 ++ st.events, st.ok⟩

/-- States of the machine reachable through its public API from
construction: any interleaving of `get_bills`, `turn_off` and `tick`. -/
inductive Reachable : VState → Prop where
  | init : ∀ eb cc, Reachable (initState eb cc)
  | get_bills : ∀ now amt tout s, Reachable s → Reachable (get_bills now amt tout s).2
  | turn_off : ∀ force s, Reachable s → Reachable (turn_off force s).2.1
  | tick : ∀ now raw tableResp s, Reachable s → Reachable (tick now raw tableResp s).st

/-! ## Helper lemmas shared by the claims -/

lemma build_eq_mkFrame (cmd : Nat) (data : List Nat) (hc : cmd < 256)
    (hd : ∀ b ∈ data, b < 256) (hlen : data.length ≤ 249) :
    build_message cmd data = some (mkFrame (cmd :: data)) := by
  have hlng : get_lng data = (cmd :: data).length + 5 := by
    simp [get_lng]
    omega
  have hbytes : ∀ b ∈ 2 :: 3 :: ((cmd :: data).length + 5) :: cmd :: data, b < 256 := by
    intro b hbmem
    simp only [List.mem_cons] at hbmem
    rcases hbmem with rfl | rfl | rfl | rfl | hbmem
    · norm_num
    · norm_num
    · simp only [List.length_cons]; omega
    · exact hc
    · exact hd b hbmem
  have hcrc := get_crc_isSome hbytes
  unfold build_message mkFrame
  rw [hlng, hcrc]

lemma get_poll_invalid (resp : List Nat) (hv : validate_response resp = some false) :
    get_poll resp = some ⟨"response_error", [0], none⟩ := by
  unfold get_poll
  rw [hv]
  rfl

lemma tick_no_timeout {now : Nat} {raw tableResp : List Nat} {s : VState}
    (h : ¬(s.active ∧ s.on_time + s.timeout < now)) :
    tick now raw tableResp s =
      match get_poll raw with
      | none => ⟨s, [], false⟩
      | some r =>
        match dispatch tableResp r s with
        | none => ⟨s, [], false⟩
        | some st => ⟨st.st, st.events, st.ok⟩ := by
  unfold tick
  rw [if_neg h]
  cases hgp : get_poll raw with
  | none => rfl
  | some r =>
    cases hd : dispatch tableResp r s with
    | none => rfl
    | some st => simp

lemma tick_timeout {now : Nat} {raw tableResp : List Nat} {s : VState}
    (h : s.active ∧ s.on_time + s.timeout < now) :
    tick now raw tableResp s =
      match get_poll raw with
      | none =>
          ⟨(turn_off false s).2.1, [Event.cmdDisable, Event.cbTimeout s.current_amount], false⟩
      | some r =>
        match dispatch tableResp r (turn_off false s).2.1 with
        | none =>
            ⟨(turn_off false s).2.1, [Event.cmdDisable, Event.cbTimeout s.current_amount], false⟩
        | some st =>
            ⟨st.st, [Event.cmdDisable, Event.cbTimeout s.current_amount] ++ st.events, st.ok⟩ := by
  unfold tick
  rw [if_pos h]
  cases hgp : get_poll raw with
  | none => rfl
  | some r =>
    cases hd : dispatch tableResp r (turn_off false s).2.1 with
    | none => rfl
    | some st => simp [turn_off]

lemma dispatch_response_error {tableResp : List Nat} {r : PollResult}
    (hst : r.state = "response_error") (s : VState) :
    dispatch tableResp r s = some (on_response_error r s) := by
  unfold dispatch
  rw [hst]
  rfl

/-! ## Claim C2: build/validate roundtrip -/

/-- C2 (counterexample): the claim admits any data tuple of length at most
250, but at length exactly 250 the length byte would be 256, so
`bytes(message_body)` inside `get_crc` raises `ValueError` and
`build_message` produces no frame at all. -/
theorem C2_counterexample : build_message 0x30 (List.replicate 250 0) = none := by decide

/-- C2 (amended): for every byte-valued command opcode and every byte data
tuple of length at most 249, `build_message` succeeds and the produced
frame passes `validate_message` (first byte 0x02, second 0x03, length byte
equal to the total length, trailing bytes the fresh CRC-16/KERMIT pair). -/
theorem C2_roundtrip (cmd : Nat) (data : List Nat) (hc : cmd < 256)
    (hd : ∀ b ∈ data, b < 256) (hlen : data.length ≤ 249) :
    ∃ m, build_message cmd data = some m ∧ validate_message m = some true := by
  refine ⟨mkFrame (cmd :: data), build_eq_mkFrame cmd data hc hd hlen, ?_⟩
  apply validate_mkFrame
  · intro b hbmem
    simp only [List.mem_cons] at hbmem
    rcases hbmem with rfl | hbmem
    · exact hc
    · exact hd b hbmem
  · simp only [List.length_cons]
    omega

/-- C2 (witness): the roundtrip at the concrete RESET command with empty
data. -/
theorem C2_witness :
    ∃ m, build_message 0x30 [] = some m ∧ validate_message m = some true :=
  C2_roundtrip 0x30 [] (by decide) (by simp) (by decide)

/-! ## Claim C8: totality of frame validation -/

/-- C8 (counterexample): `validate_message` is not total — on the empty
byte sequence `message[0]` raises `IndexError` (modelled as `none`), so the
function does not return a boolean there. -/
theorem C8_counterexample :
    validate_message [] = none ∧ validate_message [2, 3] = none := by decide

/-- C8 (amended): `validate_message` returns a boolean and raises no
exception on every byte sequence of length at least 3; only the
shorter-than-header inputs whose leading bytes happen to match SYNC/ADR
escape with an `IndexError` (and the empty input is screened out by
`validate_response` before this function is reached). -/
theorem C8_total_from_3 (msg : List Nat) (hbytes : ∀ b ∈ msg, b < 256)
    (hlen : 3 ≤ msg.length) : (validate_message msg).isSome = true := by
  rcases msg with _ | ⟨a, tail⟩
  · simp at hlen
  rcases tail with _ | ⟨b, tail2⟩
  · simp at hlen
  rcases tail2 with _ | ⟨c, rest⟩
  · simp at hlen
  unfold validate_message
  simp only [List.getElem?_cons_zero, List.getElem?_cons_succ]
  split_ifs with h1 h2 h3
  · have hcrc := get_crc_isSome
      (fun x hx => hbytes x (List.mem_of_mem_take hx)
        : ∀ x ∈ (a :: b :: c :: rest).take ((a :: b :: c :: rest).length - 2), x < 256)
    rw [hcrc]
    simp
  · simp
  · simp
  · simp

/-- C8 (witness): the amended totality at the concrete 3-byte input
`[2, 3, 3]`. -/
theorem C8_witness : (validate_message [2, 3, 3]).isSome = true :=
  C8_total_from_3 [2, 3, 3] (by decide) (by decide)

/-! ## Claim C7: parse_poll on invalid input -/

/-- C7 (counterexample): `get_poll` is not total over all non-validating
inputs — on the single byte `[2]` the SYNC check passes and `message[1]`
raises `IndexError`, which propagates out of `get_poll` (modelled as
`none`) instead of yielding the synthetic `response_error` result. -/
theorem C7_counterexample : get_poll [2] = none ∧ ([2] : List Nat) ≠ [] := by decide

/-- C7 (amended): for every input that is empty or on which frame
validation completes with a `false` verdict, `get_poll` does not fail: it
returns the `response_error` state with data `[0]` and no reject reason.
(Inputs of length 1–2 whose prefix matches SYNC/ADR crash validation
itself and propagate that exception instead.) -/
theorem C7_invalid_total (resp : List Nat) (hv : validate_response resp = some false) :
    get_poll resp = some ⟨"response_error", [0], none⟩ :=
  get_poll_invalid resp hv

/-- C7 (witness): the synthetic result at the concrete empty input. -/
theorem C7_witness : get_poll [] = some ⟨"response_error", [0], none⟩ :=
  C7_invalid_total [] (by decide)

/-! ## Claim C1: device-removed callback -/

/-- C1 (counterexample): the single malformed byte `[1]` is a response in
which the device did produce bytes, yet `get_poll` collapses it to the
synthetic zero-byte body and `tick` fires the device-removed callback —
the callback is not reserved to the no-bytes-at-all case. -/
theorem C1_counterexample :
    ([1] : List Nat) ≠ [] ∧
    validate_response [1] = some false ∧
    get_poll [1] = some ⟨"response_error", [0], none⟩ ∧
    (tick 0 [1] [] (initState [] "VNM")).events = [Event.cbDeviceRemoved] := by decide

/-- C1 (amended): on a `response_error` poll result, `tick` invokes the
device-removed callback exactly when the body is `[0]` — and that body
arises not only when the device produced no bytes, but equally whenever
validation completed negatively on a malformed frame; the check is
re-evaluated fresh on every tick (the iff holds in every state), so the
callback fires every time the combination recurs. -/
theorem C1_device_removed (now : Nat) (raw tableResp : List Nat) (s : VState)
    (r : PollResult) (hp : get_poll raw = some r) (hst : r.state = "response_error") :
    (Event.cbDeviceRemoved ∈ (tick now raw tableResp s).events ↔ r.data = [0]) ∧
    (validate_response raw = some false → r.data = [0]) := by
  have hdata : validate_response raw = some false → r.data = [0] := by
    intro hv
    rw [get_poll_invalid raw hv] at hp
    cases hp
    rfl
  refine ⟨?_, hdata⟩
  by_cases htmo : (s.active = true ∧ s.on_time + s.timeout < now)
  · simp only [tick_timeout htmo, hp, dispatch_response_error hst, on_response_error]
    by_cases hd : r.data = [0]
    · simp [hd]
    · simp [hd]
  · simp only [tick_no_timeout htmo, hp, dispatch_response_error hst, on_response_error]
    by_cases hd : r.data = [0]
    · simp [hd]
    · simp [hd]

/-- C1 (witness): the amended iff at the concrete empty poll answer in the
initial state. -/
theorem C1_witness :
    (Event.cbDeviceRemoved ∈ (tick 0 [] [] (initState [] "VNM")).events ↔
      (PollResult.mk "response_error" [0] none).data = [0]) ∧
    (validate_response [] = some false → (PollResult.mk "response_error" [0] none).data = [0]) :=
  C1_device_removed 0 [] [] (initState [] "VNM") ⟨"response_error", [0], none⟩ (by decide) rfl

/-! ## Claim C9: power-up dispatch -/

/-- C9 (counterexample): `power_up_with_bill_in_validator` (0x11) is in
the decoded state table, but `MsmValidator` defines no handler for it:
`getattr` raises `AttributeError`, so a tick carrying that state aborts
without issuing any reset (and likewise for 0x12). -/
theorem C9_counterexample :
    poll_states 0x11 = some "power_up_with_bill_in_validator" ∧
    poll_states 0x12 = some "power_up_with_bill_in_stacker" ∧
    get_poll (mkFrame [0x11]) = some ⟨"power_up_with_bill_in_validator", [0x11], none⟩ ∧
    (tick 0 (mkFrame [0x11]) [] (initState [] "VNM")).ok = false ∧
    (tick 0 (mkFrame [0x11]) [] (initState [] "VNM")).events = [] := by decide

/-- C9 (amended): only the plain `power_up` state dispatches to a handler
that issues a device reset; the two other power-up family states have no
`on_<state>` method, so dispatch raises `AttributeError` — the tick aborts
(not silently: no handler runs) and no reset command is sent. -/
theorem C9_power_up_dispatch (now : Nat) (raw tableResp : List Nat) (s : VState)
    (r : PollResult) (hp : get_poll raw = some r) :
    (r.state = "power_up" →
       (tick now raw tableResp s).ok = true ∧
       Event.cmdReset ∈ (tick now raw tableResp s).events) ∧
    ((r.state = "power_up_with_bill_in_validator" ∨
      r.state = "power_up_with_bill_in_stacker") →
       (tick now raw tableResp s).ok = false ∧
       Event.cmdReset ∉ (tick now raw tableResp s).events) := by
  constructor
  · intro hst
    have hdisp : ∀ s', dispatch tableResp r s' = some (on_power_up r s') := by
      intro s'; unfold dispatch; rw [hst]; rfl
    by_cases htmo : (s.active = true ∧ s.on_time + s.timeout < now)
    · simp [tick_timeout htmo, hp, hdisp, on_power_up]
    · simp [tick_no_timeout htmo, hp, hdisp, on_power_up]
  · intro hst
    have hdisp : ∀ s', dispatch tableResp r s' = none := by
      intro s'
      unfold dispatch
      rcases hst with h | h <;> rw [h] <;> rfl
    by_cases htmo : (s.active = true ∧ s.on_time + s.timeout < now)
    · simp [tick_timeout htmo, hp, hdisp]
    · simp [tick_no_timeout htmo, hp, hdisp]

/-- C9 (witness): a valid `power_up` poll frame makes `tick` finish
normally and send the reset command. -/
theorem C9_witness :
    (tick 0 (mkFrame [0x10]) [] (initState [] "VNM")).ok = true ∧
    Event.cmdReset ∈ (tick 0 (mkFrame [0x10]) [] (initState [] "VNM")).events :=
  (C9_power_up_dispatch 0 (mkFrame [0x10]) [] (initState [] "VNM")
    ⟨"power_up", [0x10], none⟩ (by decide)).1 rfl

/-! ## Session-state invariant: an inactive machine has zero target and
zero accumulation -/

lemma enable_bill_types_fields (t : List Nat) (s : VState) :
    (enable_bill_types t s).st.active = s.active ∧
    (enable_bill_types t s).st.amount = s.amount ∧
    (enable_bill_types t s).st.current_amount = s.current_amount ∧
    (enable_bill_types t s).st.cassette_removed = s.cassette_removed := by
  unfold enable_bill_types
  split
  · exact ⟨rfl, rfl, rfl, rfl⟩
  · split
    · exact ⟨rfl, rfl, rfl, rfl⟩
    · exact ⟨rfl, rfl, rfl, rfl⟩

lemma clear_latch_fields (s : VState) :
    (clear_latch s).active = s.active ∧
    (clear_latch s).amount = s.amount ∧
    (clear_latch s).current_amount = s.current_amount ∧
    (clear_latch s).cassette_removed = false := by
  by_cases hc : s.cassette_removed = true
  · unfold clear_latch; rw [if_pos hc]; exact ⟨rfl, rfl, rfl, rfl⟩
  · unfold clear_latch; rw [if_neg hc]; exact ⟨rfl, rfl, rfl, by simpa using hc⟩

lemma on_disabled_fields (t : List Nat) (r : PollResult) (s : VState) :
    (on_disabled t r s).st.active = s.active ∧
    (on_disabled t r s).st.amount = s.amount ∧
    (on_disabled t r s).st.current_amount = s.current_amount ∧
    (on_disabled t r s).st.cassette_removed = false := by
  unfold on_disabled
  have hcl := clear_latch_fields s
  by_cases ha : (clear_latch s).active = true
  · rw [if_pos ha]
    have he := enable_bill_types_fields t (clear_latch s)
    exact ⟨he.1.trans hcl.1, he.2.1.trans hcl.2.1,
      he.2.2.1.trans hcl.2.2.1, he.2.2.2.trans hcl.2.2.2⟩
  · rw [if_neg ha]
    exact ⟨hcl.1, hcl.2.1, hcl.2.2.1, hcl.2.2.2⟩

lemma dispatch_preserves_zero {tableResp : List Nat} {r : PollResult} {s : VState} {st : Step}
    (hd : dispatch tableResp r s = some st)
    (ih : s.active = false → s.amount = 0 ∧ s.current_amount = 0) :
    st.st.active = false → st.st.amount = 0 ∧ st.st.current_amount = 0 := by
  unfold dispatch at hd
  split at hd
  · cases hd; exact ih
  · cases hd; exact ih
  · cases hd
    have hf := on_disabled_fields tableResp r s
    rw [hf.1, hf.2.1, hf.2.2.1]
    exact ih
  · cases hd; exact ih
  · cases hd; exact ih
  · cases hd
    unfold on_escrow
    split
    · exact ih
    · split
      · exact ih
      · exact ih
  · cases hd; exact ih
  · cases hd
    unfold on_stacked
    split
    · exact ih
    · split
      · exact ih
      · split
        · intro _; exact ⟨rfl, rfl⟩
        · next hcond =>
            intro ha
            rcases ih ha with ⟨h1, _⟩
            exfalso
            apply hcond
            show s.amount ≤ s.current_amount + _
            rw [h1]
            exact Nat.zero_le _
  · cases hd
    unfold on_returned
    split
    · exact ih
    · split
      · exact ih
      · exact ih
  · cases hd; exact ih
  · cases hd
    unfold on_drop_cassette_removed
    split
    · exact ih
    · exact ih
  · cases hd
    unfold on_response_error
    split
    · exact ih
    · exact ih
  · exact absurd hd (by simp)

lemma tick_preserves_zero {now : Nat} {raw tableResp : List Nat} {s : VState}
    (ih : s.active = false → s.amount = 0 ∧ s.current_amount = 0) :
    (tick now raw tableResp s).st.active = false →
      (tick now raw tableResp s).st.amount = 0 ∧
        (tick now raw tableResp s).st.current_amount = 0 := by
  by_cases htmo : (s.active = true ∧ s.on_time + s.timeout < now)
  · rw [tick_timeout htmo]
    have ih1 : (turn_off false s).2.1.active = false →
        (turn_off false s).2.1.amount = 0 ∧ (turn_off false s).2.1.current_amount = 0 :=
      fun _ => ⟨rfl, rfl⟩
    cases hgp : get_poll raw with
    | none => dsimp only; intro _; exact ⟨rfl, rfl⟩
    | some r =>
      dsimp only
      cases hdp : dispatch tableResp r (turn_off false s).2.1 with
      | none => dsimp only; intro _; exact ⟨rfl, rfl⟩
      | some st => dsimp only; exact dispatch_preserves_zero hdp ih1
  · rw [tick_no_timeout htmo]
    cases hgp : get_poll raw with
    | none => dsimp only; exact ih
    | some r =>
      dsimp only
      cases hdp : dispatch tableResp r s with
      | none => dsimp only; exact ih
      | some st => dsimp only; exact dispatch_preserves_zero hdp ih

lemma reachable_inactive_zero {s : VState} (h : Reachable s) :
    s.active = false → s.amount = 0 ∧ s.current_amount = 0 := by
  induction h with
  | init eb cc => intro _; exact ⟨rfl, rfl⟩
  | get_bills now amt tout s hs ih =>
      by_cases ha : s.active = true
      · unfold get_bills; rw [if_pos ha]; exact ih
      · unfold get_bills; rw [if_neg ha]
        intro hcontr
        exact Bool.noConfusion hcontr
  | turn_off force s hs ih => intro _; exact ⟨rfl, rfl⟩
  | tick now raw tableResp s hs ih => exact tick_preserves_zero ih

/-! ## Claim C4: start_session -/

/-- C4 (counterexample): `get_bills` does not reset the accumulated
amount — started on an inactive state carrying a leftover accumulation of
5, it returns true and the accumulation is still 5, not 0. -/
theorem C4_counterexample :
    (get_bills 0 100 120 { initState [] "VNM" with current_amount := 5 }).1 = true ∧
    (get_bills 0 100 120 { initState [] "VNM" with current_amount := 5 }).2.current_amount
      = 5 := by decide

/-- C4 (amended): `get_bills` returns false and changes nothing while a
session is active; otherwise it returns true, sets the target, start time
and timeout and marks the session active, leaving `current_amount`
untouched (the structure update names every field it writes) — the
accumulation is nevertheless 0 at session start in every state reachable
through the API, because every session end resets it. -/
theorem C4_start_session (now amt tout : Nat) (s : VState) :
    (s.active = true → get_bills now amt tout s = (false, s)) ∧
    (s.active = false →
       get_bills now amt tout s =
         (true, { s with amount := amt, on_time := now, timeout := tout, active := true })) ∧
    (Reachable s → s.active = false → s.current_amount = 0) := by
  refine ⟨fun ha => ?_, fun ha => ?_, fun hr ha => (reachable_inactive_zero hr ha).2⟩
  · unfold get_bills; rw [if_pos ha]
  · unfold get_bills; rw [if_neg (by simp [ha])]

/-- C4 (witness): starting a session from the freshly constructed state. -/
theorem C4_witness :
    get_bills 7 100 120 (initState [] "VNM") =
      (true, { initState [] "VNM" with
                amount := 100, on_time := 7, timeout := 120, active := true }) :=
  (C4_start_session 7 100 120 (initState [] "VNM")).2.1 rfl

/-! ## Claim C10: stacked with no active session -/

/-- C10: on a `stacked` poll result with a valid bill index while no
session is active, `tick` still runs the handler (there is no
active-session check): the bill-accepted callback fires, the amount is
accumulated, and — the target being 0 whenever the machine is inactive
(an invariant of all API-reachable states) — the goal-reached callback
fires immediately with that same amount and the session state is reset. -/
theorem C10_stacked_inactive (now : Nat) (raw tableResp : List Nat) (s : VState)
    (r : PollResult) (idx : Nat) (e : BillEntry)
    (hreach : Reachable s) (ha : s.active = false)
    (hp : get_poll raw = some r) (hst : r.state = "stacked")
    (hlast : r.data.getLast? = some idx) (hidx : s.bill_table[idx]? = some e) :
    (tick now raw tableResp s).events =
      [Event.cbBillStacked e.amount, Event.cmdDisable, Event.cbGetBillsDone e.amount] ∧
    (tick now raw tableResp s).st.active = false ∧
    (tick now raw tableResp s).st.current_amount = 0 ∧
    (tick now raw tableResp s).ok = true := by
  obtain ⟨hamt, hcur⟩ := reachable_inactive_zero hreach ha
  have htmo : ¬(s.active = true ∧ s.on_time + s.timeout < now) := by
    rw [ha]; simp
  have hdisp : dispatch tableResp r s = some (on_stacked r s) := by
    unfold dispatch; rw [hst]; rfl
  have hstacked : on_stacked r s =
      ⟨(turn_off false { s with current_amount := s.current_amount + e.amount }).2.1,
       [Event.cbBillStacked e.amount, Event.cmdDisable,
        Event.cbGetBillsDone (s.current_amount + e.amount)], true⟩ := by
    unfold on_stacked
    rw [hlast]
    dsimp only
    rw [hidx]
    dsimp only
    rw [if_pos (by rw [hamt]; exact Nat.zero_le _)]
    rfl
  rw [tick_no_timeout htmo, hp]
  dsimp only
  rw [hdisp]
  dsimp only
  rw [hstacked]
  refine ⟨?_, rfl, rfl, rfl⟩
  rw [hcur, Nat.zero_add]

/-- Device answers used to reach a concrete witness state: a `disabled`
poll frame and a 24-entry bill table (each entry reading amount 1,
country code ABC). -/
def wTableResp : List Nat := mkFrame ((List.replicate 24 [1, 65, 66, 67, 0]).flatten)

/-- A concrete API-reachable inactive state owning a 24-entry bill table:
start a session, tick once on a `disabled` poll (which re-enables bill
types and caches the table), then stop the session. -/
def wState : VState :=
  (turn_off false
    (tick 0 (mkFrame [0x19]) wTableResp (get_bills 0 1 120 (initState [] "VNM")).2).st).2.1

lemma wState_reachable : Reachable wState :=
  Reachable.turn_off false _ (Reachable.tick 0 (mkFrame [0x19]) wTableResp _
    (Reachable.get_bills 0 1 120 _ (Reachable.init [] "VNM")))

/-- C10 (witness): a stacked bill of denomination 1 arriving at the
inactive reachable state fires both callbacks with amount 1 and resets. -/
theorem C10_witness :
    (tick 0 (mkFrame [0x81, 0]) [] wState).events =
      [Event.cbBillStacked 1, Event.cmdDisable, Event.cbGetBillsDone 1] ∧
    (tick 0 (mkFrame [0x81, 0]) [] wState).st.active = false ∧
    (tick 0 (mkFrame [0x81, 0]) [] wState).st.current_amount = 0 ∧
    (tick 0 (mkFrame [0x81, 0]) [] wState).ok = true :=
  C10_stacked_inactive 0 (mkFrame [0x81, 0]) [] wState
    ⟨"stacked", [0x81, 0], none⟩ 0 ⟨1, "ABC"⟩ wState_reachable (by decide) (by decide) rfl
    (by decide) (by decide)

/-! ## Claim C5: stacked bill and goal reached -/

/-- C5: on a `stacked` poll result (with a resolvable bill index and no
expiring timeout this tick), `tick` fires the bill-accepted callback with
the table amount and accumulates it; whenever the new accumulation meets
or exceeds the target — equality included — the session ends non-forced
the same tick (device disabled, session fields zeroed) and the
goal-reached callback receives the final total; otherwise only the
bill-accepted callback fires and the session continues, so the machine
never continues past the target silently. -/
theorem C5_stacked (now : Nat) (raw tableResp : List Nat) (s : VState)
    (r : PollResult) (idx : Nat) (e : BillEntry)
    (hp : get_poll raw = some r) (hst : r.state = "stacked")
    (hlast : r.data.getLast? = some idx) (hidx : s.bill_table[idx]? = some e)
    (htmo : ¬(s.active = true ∧ s.on_time + s.timeout < now)) :
    (s.amount ≤ s.current_amount + e.amount →
       (tick now raw tableResp s).events =
         [Event.cbBillStacked e.amount, Event.cmdDisable,
          Event.cbGetBillsDone (s.current_amount + e.amount)] ∧
       (tick now raw tableResp s).st.active = false ∧
       (tick now raw tableResp s).st.amount = 0 ∧
       (tick now raw tableResp s).st.current_amount = 0 ∧
       (tick now raw tableResp s).ok = true) ∧
    (s.current_amount + e.amount < s.amount →
       (tick now raw tableResp s).events = [Event.cbBillStacked e.amount] ∧
       (tick now raw tableResp s).st.active = s.active ∧
       (tick now raw tableResp s).st.current_amount = s.current_amount + e.amount ∧
       (tick now raw tableResp s).ok = true) := by
  have hdisp : dispatch tableResp r s = some (on_stacked r s) := by
    unfold dispatch; rw [hst]; rfl
  rw [tick_no_timeout htmo, hp]
  dsimp only
  rw [hdisp]
  dsimp only
  constructor
  · intro hge
    have hstacked : on_stacked r s =
        ⟨(turn_off false { s with current_amount := s.current_amount + e.amount }).2.1,
         [Event.cbBillStacked e.amount, Event.cmdDisable,
          Event.cbGetBillsDone (s.current_amount + e.amount)], true⟩ := by
      unfold on_stacked
      rw [hlast]
      dsimp only
      rw [hidx]
      dsimp only
      rw [if_pos hge]
      rfl
    rw [hstacked]
    exact ⟨rfl, rfl, rfl, rfl, rfl⟩
  · intro hlt
    have hstacked : on_stacked r s =
        ⟨{ s with current_amount := s.current_amount + e.amount },
         [Event.cbBillStacked e.amount], true⟩ := by
      unfold on_stacked
      rw [hlast]
      dsimp only
      rw [hidx]
      dsimp only
      rw [if_neg (by omega)]
    rw [hstacked]
    exact ⟨rfl, rfl, rfl, rfl⟩

/-- C5 (witness): mid-session (target 1000, 500 collected), a stacked bill
of denomination 500 reaches the target exactly; both callbacks fire and
the session ends the same tick. -/
theorem C5_witness :
    (tick 0 (mkFrame [0x81, 0]) []
        ⟨[], [⟨500, "VNM"⟩], false, true, 0, 120, 1000, 500, "VNM"⟩).events =
      [Event.cbBillStacked 500, Event.cmdDisable, Event.cbGetBillsDone (500 + 500)] ∧
    (tick 0 (mkFrame [0x81, 0]) []
        ⟨[], [⟨500, "VNM"⟩], false, true, 0, 120, 1000, 500, "VNM"⟩).st.active = false ∧
    (tick 0 (mkFrame [0x81, 0]) []
        ⟨[], [⟨500, "VNM"⟩], false, true, 0, 120, 1000, 500, "VNM"⟩).st.amount = 0 ∧
    (tick 0 (mkFrame [0x81, 0]) []
        ⟨[], [⟨500, "VNM"⟩], false, true, 0, 120, 1000, 500, "VNM"⟩).st.current_amount = 0 ∧
    (tick 0 (mkFrame [0x81, 0]) []
        ⟨[], [⟨500, "VNM"⟩], false, true, 0, 120, 1000, 500, "VNM"⟩).ok = true :=
  (C5_stacked 0 (mkFrame [0x81, 0]) []
      ⟨[], [⟨500, "VNM"⟩], false, true, 0, 120, 1000, 500, "VNM"⟩
      ⟨"stacked", [0x81, 0], none⟩ 0 ⟨500, "VNM"⟩
      (by decide) rfl (by decide) (by decide) (by decide)).1 (by decide)

/-! ## Claim C6: cassette-removed latch -/

lemma on_drop_fields (r : PollResult) (s : VState) :
    (on_drop_cassette_removed r s).st.cassette_removed = true ∧
    (on_drop_cassette_removed r s).events
      = (if s.cassette_removed then [] else [Event.cbCassetteRemoved]) ∧
    (on_drop_cassette_removed r s).ok = true := by
  unfold on_drop_cassette_removed
  by_cases hc : s.cassette_removed = true
  · rw [if_pos hc]
    exact ⟨hc, by rw [if_pos hc], rfl⟩
  · rw [if_neg hc]
    exact ⟨rfl, by rw [if_neg hc], rfl⟩

lemma tick_removal (now : Nat) (tableResp : List Nat) (s : VState)
    {raw : List Nat} {r : PollResult}
    (hp : get_poll raw = some r) (hst : r.state = "drop_cassette_removed") :
    (tick now raw tableResp s).st.cassette_removed = true ∧
    (tick now raw tableResp s).events.count Event.cbCassetteRemoved
      = (if s.cassette_removed then 0 else 1) ∧
    (tick now raw tableResp s).ok = true := by
  have hdisp : ∀ s', dispatch tableResp r s' = some (on_drop_cassette_removed r s') := by
    intro s'; unfold dispatch; rw [hst]; rfl
  by_cases htmo : (s.active = true ∧ s.on_time + s.timeout < now)
  · rw [tick_timeout htmo, hp]
    dsimp only
    rw [hdisp]
    dsimp only
    obtain ⟨h1, h2, h3⟩ := on_drop_fields r ((turn_off false s).2.1)
    refine ⟨h1, ?_, h3⟩
    rw [List.count_append, h2]
    have hsame : (turn_off false s).2.1.cassette_removed = s.cassette_removed := rfl
    rw [hsame]
    by_cases hc : s.cassette_removed = true
    · simp [hc]
    · simp [hc]
  · rw [tick_no_timeout htmo, hp]
    dsimp only
    rw [hdisp]
    dsimp only
    obtain ⟨h1, h2, h3⟩ := on_drop_fields r s
    refine ⟨h1, ?_, h3⟩
    rw [h2]
    by_cases hc : s.cassette_removed = true
    · simp [hc]
    · simp [hc]

lemma tick_disabled_clears {now : Nat} {raw tableResp : List Nat} {s : VState} {r : PollResult}
    (hp : get_poll raw = some r) (hst : r.state = "disabled") :
    (tick now raw tableResp s).st.cassette_removed = false := by
  have hdisp : ∀ s', dispatch tableResp r s' = some (on_disabled tableResp r s') := by
    intro s'; unfold dispatch; rw [hst]; rfl
  by_cases htmo : (s.active = true ∧ s.on_time + s.timeout < now)
  · rw [tick_timeout htmo, hp]
    dsimp only
    rw [hdisp]
    dsimp only
    exact (on_disabled_fields tableResp r _).2.2.2
  · rw [tick_no_timeout htmo, hp]
    dsimp only
    rw [hdisp]
    dsimp only
    exact (on_disabled_fields tableResp r _).2.2.2

/-- The caller's polling loop (`while: device.tick()`): run `tick` over a
list of per-tick inputs (time, poll answer, bill-table answer), stopping —
as the Python loop does — when an exception escapes a tick, and
concatenating all emitted events. -/
def run_ticks : List (Nat × List Nat × List Nat) → VState → VState × List Event
  | [], s => (s, [])
  | (now, raw, tableResp) :: rest, s =>
    if (tick now raw tableResp s).ok then
      ((run_ticks rest (tick now raw tableResp s).st).1,
       (tick now raw tableResp s).events ++ (run_ticks rest (tick now raw tableResp s).st).2)
    else ((tick now raw tableResp s).st, (tick now raw tableResp s).events)

lemma poll_state_elim {raw : List Nat} {st : String}
    (h : Option.map PollResult.state (get_poll raw) = some st) :
    ∃ r, get_poll raw = some r ∧ r.state = st := by
  cases hgp : get_poll raw with
  | none => rw [hgp] at h; simp at h
  | some r =>
      rw [hgp] at h
      refine ⟨r, rfl, ?_⟩
      simpa using h

lemma run_ticks_removal_latched :
    ∀ (inputs : List (Nat × List Nat × List Nat)) (s : VState),
      (∀ inp ∈ inputs,
        Option.map PollResult.state (get_poll inp.2.1) = some "drop_cassette_removed") →
      s.cassette_removed = true →
      (run_ticks inputs s).2.count Event.cbCassetteRemoved = 0 := by
  intro inputs
  induction inputs with
  | nil => intro s _ _; rfl
  | cons inp rest ih =>
      intro s hall hc
      obtain ⟨now, raw, tableResp⟩ := inp
      obtain ⟨r, hp, hst⟩ := poll_state_elim (hall _ (List.mem_cons_self _ _))
      obtain ⟨h1, h2, h3⟩ := tick_removal now tableResp s hp hst
      unfold run_ticks
      rw [if_pos h3, List.count_append, h2, if_pos hc,
        ih _ (fun i hi => hall i (List.mem_cons_of_mem _ hi)) h1]

lemma run_ticks_removal_unlatched :
    ∀ (inputs : List (Nat × List Nat × List Nat)) (s : VState),
      (∀ inp ∈ inputs,
        Option.map PollResult.state (get_poll inp.2.1) = some "drop_cassette_removed") →
      s.cassette_removed = false → inputs ≠ [] →
      (run_ticks inputs s).2.count Event.cbCassetteRemoved = 1 := by
  intro inputs
  cases inputs with
  | nil => intro s _ _ hne; exact absurd rfl hne
  | cons inp rest =>
      intro s hall hc _
      obtain ⟨now, raw, tableResp⟩ := inp
      obtain ⟨r, hp, hst⟩ := poll_state_elim (hall _ (List.mem_cons_self _ _))
      obtain ⟨h1, h2, h3⟩ := tick_removal now tableResp s hp hst
      unfold run_ticks
      rw [if_pos h3, List.count_append, h2, if_neg (by simp [hc]),
        run_ticks_removal_latched rest _ (fun i hi => hall i (List.mem_cons_of_mem _ hi)) h1]

lemma dispatch_latched {tableResp : List Nat} {r : PollResult} {s : VState} {st : Step}
    (hd : dispatch tableResp r s = some st)
    (hc : s.cassette_removed = true) (hnd : r.state ≠ "disabled") :
    st.st.cassette_removed = true ∧
    st.events.count Event.cbCassetteRemoved = 0 := by
  unfold dispatch at hd
  split at hd
  · cases hd; exact ⟨hc, rfl⟩
  · cases hd; exact ⟨hc, rfl⟩
  · rename_i heq; exact absurd heq hnd
  · cases hd; exact ⟨hc, rfl⟩
  · cases hd; exact ⟨hc, rfl⟩
  · cases hd
    unfold on_escrow
    split
    · exact ⟨hc, rfl⟩
    · split
      · exact ⟨hc, rfl⟩
      · exact ⟨hc, rfl⟩
  · cases hd; exact ⟨hc, rfl⟩
  · cases hd
    unfold on_stacked
    split
    · exact ⟨hc, rfl⟩
    · split
      · exact ⟨hc, rfl⟩
      · split
        · exact ⟨hc, by simp [List.count_eq_zero, turn_off]⟩
        · exact ⟨hc, by simp [List.count_eq_zero]⟩
  · cases hd
    unfold on_returned
    split
    · exact ⟨hc, rfl⟩
    · split
      · exact ⟨hc, rfl⟩
      · exact ⟨hc, rfl⟩
  · cases hd; exact ⟨hc, rfl⟩
  · cases hd
    unfold on_drop_cassette_removed
    rw [if_pos hc]
    exact ⟨hc, rfl⟩
  · cases hd
    unfold on_response_error
    split
    · exact ⟨hc, rfl⟩
    · exact ⟨hc, rfl⟩
  · exact absurd hd (by simp)

lemma tick_latched_no_disabled (now : Nat) (raw tableResp : List Nat) (s : VState)
    (hc : s.cassette_removed = true)
    (hnd : Option.map PollResult.state (get_poll raw) ≠ some "disabled") :
    (tick now raw tableResp s).st.cassette_removed = true ∧
    (tick now raw tableResp s).events.count Event.cbCassetteRemoved = 0 := by
  by_cases htmo : (s.active = true ∧ s.on_time + s.timeout < now)
  · rw [tick_timeout htmo]
    cases hgp : get_poll raw with
    | none =>
        dsimp only
        refine ⟨hc, ?_⟩
        simp [List.count_eq_zero]
    | some r =>
        dsimp only
        have hr : r.state ≠ "disabled" := by
          rw [hgp] at hnd; simpa using hnd
        cases hdp : dispatch tableResp r (turn_off false s).2.1 with
        | none =>
            dsimp only
            refine ⟨hc, ?_⟩
            simp [List.count_eq_zero]
        | some st =>
            dsimp only
            have hc1 : (turn_off false s).2.1.cassette_removed = true := hc
            obtain ⟨h1, h2⟩ := dispatch_latched hdp hc1 hr
            refine ⟨h1, ?_⟩
            rw [List.count_append, h2]
            simp [List.count_eq_zero]
  · rw [tick_no_timeout htmo]
    cases hgp : get_poll raw with
    | none => dsimp only; exact ⟨hc, rfl⟩
    | some r =>
        dsimp only
        have hr : r.state ≠ "disabled" := by
          rw [hgp] at hnd; simpa using hnd
        cases hdp : dispatch tableResp r s with
        | none => dsimp only; exact ⟨hc, rfl⟩
        | some st =>
            dsimp only
            exact dispatch_latched hdp hc hr

lemma run_ticks_latched_no_disabled :
    ∀ (inputs : List (Nat × List Nat × List Nat)) (s : VState),
      (∀ inp ∈ inputs,
        Option.map PollResult.state (get_poll inp.2.1) ≠ some "disabled") →
      s.cassette_removed = true →
      (run_ticks inputs s).2.count Event.cbCassetteRemoved = 0 := by
  intro inputs
  induction inputs with
  | nil => intro s _ _; rfl
  | cons inp rest ih =>
      intro s hall hc
      obtain ⟨now, raw, tableResp⟩ := inp
      obtain ⟨h1, h2⟩ := tick_latched_no_disabled now raw tableResp s hc
        (hall _ (List.mem_cons_self _ _))
      unfold run_ticks
      by_cases hok : (tick now raw tableResp s).ok = true
      · rw [if_pos hok, List.count_append, h2,
          ih _ (fun i hi => hall i (List.mem_cons_of_mem _ hi)) h1]
      · rw [if_neg hok]
        exact h2

/-- C6: observing `drop_cassette_removed` fires the cassette-removed
callback exactly once and latches — a tick on that state leaves the latch
set and emits the callback once when the latch was clear, zero times when
already latched; a `disabled` observation clears the latch; every tick
whose polled state is not `disabled` (whatever it is, including failing
polls and aborted dispatches) keeps a set latch set and emits no
cassette-removed callback; hence across any run avoiding `disabled` that
starts latched — removal observations freely interleaved with any other
states — the callback never fires again, and across any nonempty run of
removal observations started unlatched it fires exactly once in total
(so only a `disabled` re-arms it, after which a removal fires once
more). -/
theorem C6_cassette_latch (now : Nat) (raw tableResp : List Nat) (s : VState) :
    (∀ r, get_poll raw = some r → r.state = "drop_cassette_removed" →
       (tick now raw tableResp s).st.cassette_removed = true ∧
       (tick now raw tableResp s).events.count Event.cbCassetteRemoved
         = (if s.cassette_removed then 0 else 1)) ∧
    (∀ r, get_poll raw = some r → r.state = "disabled" →
       (tick now raw tableResp s).st.cassette_removed = false) ∧
    (s.cassette_removed = true →
       Option.map PollResult.state (get_poll raw) ≠ some "disabled" →
       (tick now raw tableResp s).st.cassette_removed = true ∧
       (tick now raw tableResp s).events.count Event.cbCassetteRemoved = 0) ∧
    (∀ inputs : List (Nat × List Nat × List Nat),
       (∀ inp ∈ inputs,
         Option.map PollResult.state (get_poll inp.2.1) ≠ some "disabled") →
       s.cassette_removed = true →
       (run_ticks inputs s).2.count Event.cbCassetteRemoved = 0) ∧
    (∀ inputs : List (Nat × List Nat × List Nat),
       (∀ inp ∈ inputs,
         Option.map PollResult.state (get_poll inp.2.1) = some "drop_cassette_removed") →
       s.cassette_removed = false → inputs ≠ [] →
       (run_ticks inputs s).2.count Event.cbCassetteRemoved = 1) :=
  ⟨fun _ hp hst => ⟨(tick_removal now tableResp s hp hst).1,
     (tick_removal now tableResp s hp hst).2.1⟩,
   fun _ hp hst => tick_disabled_clears hp hst,
   fun hc hnd => tick_latched_no_disabled now raw tableResp s hc hnd,
   fun inputs hall hc => run_ticks_latched_no_disabled inputs s hall hc,
   fun inputs hall hc hne => run_ticks_removal_unlatched inputs s hall hc hne⟩

/-- C6 (witness): a `drop_cassette_removed` poll from the fresh state
fires the callback once and latches; from the latched state a run mixing
a removal, an `idling` and another removal — no `disabled` in between —
fires the callback zero further times. -/
theorem C6_witness :
    (tick 0 (mkFrame [0x42]) [] (initState [] "VNM")).st.cassette_removed = true ∧
    (tick 0 (mkFrame [0x42]) [] (initState [] "VNM")).events.count Event.cbCassetteRemoved
      = (if (initState [] "VNM").cassette_removed then 0 else 1) ∧
    (run_ticks [(0, mkFrame [0x42], []), (0, mkFrame [0x14], []), (0, mkFrame [0x42], [])]
        { initState [] "VNM" with cassette_removed := true }).2.count
      Event.cbCassetteRemoved = 0 :=
  ⟨((C6_cassette_latch 0 (mkFrame [0x42]) [] (initState [] "VNM")).1
      ⟨"drop_cassette_removed", [0x42], none⟩ (by decide) rfl).1,
   ((C6_cassette_latch 0 (mkFrame [0x42]) [] (initState [] "VNM")).1
      ⟨"drop_cassette_removed", [0x42], none⟩ (by decide) rfl).2,
   (C6_cassette_latch 0 [] [] { initState [] "VNM" with cassette_removed := true }).2.2.2.1
      [(0, mkFrame [0x42], []), (0, mkFrame [0x14], []), (0, mkFrame [0x42], [])]
      (by decide) rfl⟩

/-! ## Claim C3: bill table decoding -/

/-- The decoding the spec prescribes for entry `i` of a bill-table body:
amount = digit at offset 5i times ten to the exponent at offset 5i+4, and
the three-character country code from the bytes in between. -/
def specBillEntryAt (body : List Nat) (i : Nat) : BillEntry :=
  ⟨body.getD (5 * i) 0 * 10 ^ body.getD (5 * i + 4) 0,
   String.mk [Char.ofNat (body.getD (5 * i + 1) 0), Char.ofNat (body.getD (5 * i + 2) 0),
     Char.ofNat (body.getD (5 * i + 3) 0)]⟩

lemma grouper5_cons (a b c d e : Nat) (rest : List Nat) :
    grouper5 (a :: b :: c :: d :: e :: rest)
      = [some a, some b, some c, some d, some e] :: grouper5 rest := rfl

lemma decode_table_complete :
    ∀ (k : Nat) (body : List Nat), body.length = 5 * k →
      ∃ l, decode_table (grouper5 body) = some l ∧ l.length = k ∧
        ∀ i, i < k → l.getD i default = specBillEntryAt body i := by
  intro k
  induction k with
  | zero =>
      intro body hlen
      have hnil : body = [] := List.length_eq_zero.mp (by omega)
      subst hnil
      exact ⟨[], rfl, rfl, fun i hi => absurd hi (Nat.not_lt_zero i)⟩
  | succ k ih =>
      intro body hlen
      rcases body with _ | ⟨a, body⟩
      · simp only [List.length_nil, List.length_cons] at hlen; omega
      rcases body with _ | ⟨b, body⟩
      · simp only [List.length_nil, List.length_cons] at hlen; omega
      rcases body with _ | ⟨c, body⟩
      · simp only [List.length_nil, List.length_cons] at hlen; omega
      rcases body with _ | ⟨d, body⟩
      · simp only [List.length_nil, List.length_cons] at hlen; omega
      rcases body with _ | ⟨e, rest⟩
      · simp only [List.length_nil, List.length_cons] at hlen; omega
      have hrest : rest.length = 5 * k := by
        simp only [List.length_cons] at hlen
        omega
      obtain ⟨l, hl, hlen', hspec⟩ := ih rest hrest
      refine ⟨⟨a * 10 ^ e, String.mk [Char.ofNat b, Char.ofNat c, Char.ofNat d]⟩ :: l,
        ?_, by simp [hlen'], ?_⟩
      · rw [grouper5_cons]
        unfold decode_table
        rw [show decode_word [some a, some b, some c, some d, some e]
              = some ⟨a * 10 ^ e, String.mk [Char.ofNat b, Char.ofNat c, Char.ofNat d]⟩
            from rfl, hl]
      · intro i hi
        cases i with
        | zero => rfl
        | succ i =>
            have hi' : i < k := by omega
            have hs := hspec i hi'
            rw [show ((⟨a * 10 ^ e,
                  String.mk [Char.ofNat b, Char.ofNat c, Char.ofNat d]⟩ : BillEntry)
                  :: l).getD (i + 1) default = l.getD i default from rfl, hs]
            rfl

lemma decode_table_partial :
    ∀ (n : Nat) (body : List Nat), body.length ≤ n → body.length % 5 ≠ 0 →
      decode_table (grouper5 body) = none := by
  intro n
  induction n with
  | zero =>
      intro body hle hmod
      have hnil : body = [] := List.length_eq_zero.mp (by omega)
      subst hnil
      simp at hmod
  | succ n ih =>
      intro body hle hmod
      by_cases hlen5 : 5 ≤ body.length
      · rcases body with _ | ⟨a, body⟩
        · simp only [List.length_nil, List.length_cons] at hlen5; omega
        rcases body with _ | ⟨b, body⟩
        · simp only [List.length_nil, List.length_cons] at hlen5; omega
        rcases body with _ | ⟨c, body⟩
        · simp only [List.length_nil, List.length_cons] at hlen5; omega
        rcases body with _ | ⟨d, body⟩
        · simp only [List.length_nil, List.length_cons] at hlen5; omega
        rcases body with _ | ⟨e, rest⟩
        · simp only [List.length_nil, List.length_cons] at hlen5; omega
        rw [grouper5_cons]
        unfold decode_table
        rw [show decode_word [some a, some b, some c, some d, some e]
              = some ⟨a * 10 ^ e, String.mk [Char.ofNat b, Char.ofNat c, Char.ofNat d]⟩
            from rfl,
          ih rest (by simp only [List.length_cons] at hle; omega)
            (by simp only [List.length_cons] at hmod ⊢; omega)]
      · rcases body with _ | ⟨a, body⟩
        · simp at hmod
        rcases body with _ | ⟨b, body⟩
        · rfl
        rcases body with _ | ⟨c, body⟩
        · rfl
        rcases body with _ | ⟨d, body⟩
        · rfl
        rcases body with _ | ⟨e, rest⟩
        · rfl
        exfalso
        simp only [List.length_cons, not_le] at hlen5
        omega

/-- C3 (counterexample): a perfectly valid frame whose body length is 1
(not a multiple of 5) makes `get_bill_table` raise — `zip_longest` pads
the trailing group with `None` and `10 ** None` is a `TypeError` — rather
than drop the partial group. -/
theorem C3_counterexample :
    validate_message (mkFrame [7]) = some true ∧
    (response_body (mkFrame [7])).length = 1 ∧
    get_bill_table (mkFrame [7]) = none := by decide

/-- C3 (amended): on a valid frame with a 120-byte body, `get_bill_table`
yields exactly 24 entries in input order, entry `i` decoded from body
bytes 5i..5i+4 as amount = digit × 10^exponent plus a 3-character country
code; but on a valid frame whose body length is not a multiple of 5 the
call raises `TypeError` on the `None`-padded trailing group (it does not
drop it). -/
theorem C3_bill_table (resp : List Nat) (hv : validate_response resp = some true) :
    ((response_body resp).length = 120 →
       ∃ l, get_bill_table resp = some l ∧ l.length = 24 ∧
         ∀ i, i < 24 → l.getD i default = specBillEntryAt (response_body resp) i) ∧
    ((response_body resp).length % 5 ≠ 0 → get_bill_table resp = none) := by
  have hbt : get_bill_table resp = decode_table (grouper5 (response_body resp)) := by
    unfold get_bill_table
    rw [hv]
  constructor
  · intro h120
    obtain ⟨l, hl, hlen, hspec⟩ := decode_table_complete 24 (response_body resp) (by omega)
    exact ⟨l, hbt.trans hl, hlen, hspec⟩
  · intro hmod
    rw [hbt]
    exact decode_table_partial (response_body resp).length _ le_rfl hmod

/-- C3 (witness): the 24-entry table frame decodes to exactly 24 entries
matching the per-index decoding. -/
theorem C3_witness :
    ∃ l, get_bill_table wTableResp = some l ∧ l.length = 24 ∧
      ∀ i, i < 24 → l.getD i default = specBillEntryAt (response_body wTableResp) i :=
  (C3_bill_table wTableResp (by decide)).1 (by decide)

end CCNet
